import Mathlib

/-!
Shallow embedding of the `mpwl-raytrace` halo test-case generators:
`cosmology.py`, `halo_inputs.py`, `test_cases/make_simple_lens.py` and
`NFW_test_cases/make_simple_halo.py`.

External collaborators (the astropy cosmology object with its
`comoving_distance` / `angular_diameter_distance` functions and `z_at_value`
inverse, the HaloTools `mc_generate_nfw_radial_positions` sampler, the
colossus / `mass_conc` concentration samplers, and the numpy random generator)
are modelled as explicit function parameters, following the component
boundaries drawn in the spec (sections 1 and 2).  Float arithmetic is modelled
over `ℝ`; purely integral / index bookkeeping (lens-plane edges, array
shapes) is modelled over `ℚ` and `ℕ` so that it stays decidable.
-/

namespace MPWL

/-- Python `int()` applied to a rational value: truncation toward zero
(`Int.tdiv` is truncated integer division). -/
def pyInt (q : ℚ) : ℤ := q.num.tdiv q.den

/-- `np.linspace a b count`: `count` evenly spaced values from `a` to `b`,
with step `(b - a) / (count - 1)`.  For `count = 1` numpy returns `[a]`,
which the formula also yields because division by zero is zero. -/
def npLinspace {α : Type} [Field α] (a b : α) (count : ℕ) : List α :=
  (List.range count).map (fun i : ℕ => a + (b - a) * (i : α) / ((count : α) - 1))

/-- Python exception classes that the embedded code can raise.  The
`RuntimeError('populate_halo must be called before output_particles')` guard
in `make_simple_lens.py:202-203` realizes the spec's InvalidState error and is
modelled by the `invalidState` constructor. -/
inductive PyErr
  | nameError
  | assertionError
  | typeError
  | invalidState
  deriving DecidableEq

/-- The six per-particle arrays emitted for the ray-tracing modules
(`x.bin`, `y.bin`, `z.bin`, `theta.bin`, `phi.bin`, `redshift.bin`). -/
structure ParticleOutput where
  x : List ℝ
  y : List ℝ
  z : List ℝ
  theta : List ℝ
  phi : List ℝ
  redshift : List ℝ

-- ====================================================================
-- cosmology.py
-- ====================================================================

namespace cosmology

/-- From `cosmology.py:58-59`: `def Dc2(z1,z2): return Dc(z2) - Dc(z2)`.
The comoving-distance function `Dc` wraps the external astropy cosmology and
is passed as a parameter.  Note that the source subtracts `Dc(z2)` from
itself (the first argument `z1` is never used). -/
noncomputable def Dc2 (Dc : ℝ → ℝ) (z1 z2 : ℝ) : ℝ := Dc z2 - Dc z2

/-- From `cosmology.py:63-64`: `def Da2(z1,z2): return (Da(z2) - Da(z1))`,
with `Da` the external angular-diameter-distance function. -/
noncomputable def Da2 (Da : ℝ → ℝ) (z1 z2 : ℝ) : ℝ := Da z2 - Da z1

/-- From `cosmology.py:78-82`:
`sigma_crit = vc*vc/(4.0*np.pi*G) * Da(zs)/(Da(zl)*Da2(zl,zs))`.
The constants `vc` (speed of light, km/s) and `G` (gravitational constant in
Mpc/Msun (km/s)^2) come from astropy and are passed as parameters. -/
noncomputable def sigma_crit (vc G : ℝ) (Da : ℝ → ℝ) (zl zs : ℝ) : ℝ :=
  vc * vc / (4 * Real.pi * G) * Da zs / (Da zl * Da2 Da zl zs)

/-- A constant angular-diameter-distance function, used only to witness
theorems whose hypotheses mention two redshifts with equal distance. -/
noncomputable def DaConst : ℝ → ℝ := fun _ => 1

end cosmology

-- ====================================================================
-- test_cases/make_simple_lens.py, class NFW
-- ====================================================================

namespace NFW

/-- The closed-form NFW enclosed mass of `make_simple_lens.py:153-157`:
with `rs = r200c / c` and `rmax = rfrac * r200c`,
`n = log((rs+rmax)/rs) - rmax/(rmax+rs)`, `d = log(1+c) - c/(1+c)`,
`M_enc = m200c * n / d` (lets inlined). -/
noncomputable def M_enc (m200c c r200c rfrac : ℝ) : ℝ :=
  m200c *
      (Real.log ((r200c / c + rfrac * r200c) / (r200c / c)) -
        rfrac * r200c / (rfrac * r200c + r200c / c)) /
    (Real.log (1 + c) - c / (1 + c))

/-- Polar-angle draw of `NFW.populate_halo` (`make_simple_lens.py:169,171`):
`v = rand.uniform(0, 1)` then `theta = arccos(2*v - 1)`, as a function of the
underlying unit uniform deviate `v`. -/
noncomputable def thetaDraw (v : ℝ) : ℝ := Real.arccos (2 * v - 1)

/-- Azimuthal draw of `NFW.populate_halo` (`make_simple_lens.py:170`):
`phi = rand.uniform(low=0, high=2*np.pi)`, i.e. `low + (high - low) * u` for
the underlying unit uniform deviate `u`. -/
noncomputable def phiDraw (u : ℝ) : ℝ := 0 + (2 * Real.pi - 0) * u

/-- Attributes fixed by the `NFW` constructor (`make_simple_lens.py:72-112`):
mass, radius, concentration (from the external colossus sampler) and
redshift. -/
structure Halo where
  m200c : ℝ
  r200c : ℝ
  c : ℝ
  redshift : ℝ

/-- State after `NFW.populate_halo`: the three per-particle arrays, the mass
per particle, the radial extent multiplier and the `populated` flag. -/
structure Populated where
  halo : Halo
  r : List ℝ
  theta : List ℝ
  phi : List ℝ
  mpp : ℝ
  max_rfrac : ℝ
  populated : Bool

/-- `NFW.populate_halo` (`make_simple_lens.py:118-178`).  `mcRadial` is the
external HaloTools `mc_generate_nfw_radial_positions` sampler (arguments
`num_pts`, `conc`, `halo_radius`, the latter in Mpc/h); `vdev` and `udev` are
the unit-uniform deviate streams behind `rand.uniform`; `cosmoh` is
`cosmo.h`.  The radial draw is divided by `h` (line 148), the mass per
particle is `M_enc / N` (lines 151-158), radii are scaled to comoving by
`(1 + z)` (line 162), the angular draws follow lines 168-171, and the
optional line-of-sight clipping (lines 173-178) filters `r`, `theta`, `phi`
by the single mask `|r sin(theta) cos(phi)| / r200c <= rfrac_los`. -/
noncomputable def populate_halo (hh : Halo) (cosmoh : ℝ)
    (mcRadial : ℕ → ℝ → ℝ → List ℝ) (vdev udev : ℕ → ℝ)
    (N : ℕ) (rfrac : ℝ) (rfrac_los : Option ℝ) : Populated :=
  let rdraw := mcRadial N (rfrac * hh.c) (rfrac * (hh.r200c * cosmoh))
  let r0 := rdraw.map (fun x => x / cosmoh)
  let mpp := M_enc hh.m200c hh.c hh.r200c rfrac / (N : ℝ)
  let r1 := r0.map (fun x => x * (1 + hh.redshift))
  let theta := (List.range rdraw.length).map (fun i => thetaDraw (vdev i))
  let phi := (List.range rdraw.length).map (fun i => phiDraw (udev i))
  match rfrac_los with
  | Option.none => ⟨hh, r1, theta, phi, mpp, rfrac, true⟩
  | Option.some rl =>
    let trip := r1.zip (theta.zip phi)
    let kept := trip.filter
      (fun t => decide (|t.1 * Real.sin t.2.1 * Real.cos t.2.2| / hh.r200c ≤ rl))
    ⟨hh, kept.map (fun t => t.1), kept.map (fun t => t.2.1),
      kept.map (fun t => t.2.2), mpp, rfrac, true⟩

/-- Linear interpolation through a list of `(x, y)` knots, modelling
`scipy.interpolate.interp1d(x_samp, z_samp)` evaluated at `r`: on the segment
`[x_i, x_{i+1}]` it returns `y_i + (y_{i+1} - y_i) * (r - x_i) / (x_{i+1} - x_i)`.
scipy raises for queries outside the knot range (`bounds_error=True` by
default), so the values this total model returns there are irrelevant junk. -/
noncomputable def interp1d : List (ℝ × ℝ) → ℝ → ℝ
  | [], _ => 0
  | [p], _ => p.2
  | p :: q :: rest, r =>
    if r ≤ q.1 then p.2 + (q.2 - p.2) * (r - p.1) / (q.1 - p.1)
    else interp1d (q :: rest) r

/-- First coordinate of the last knot (0 for the empty list). -/
def lastX : List (ℝ × ℝ) → ℝ
  | [] => 0
  | [p] => p.1
  | _ :: q :: rest => lastX (q :: rest)

/-- The 10-point redshift grid of `make_simple_lens.py:218-220`:
`z_samp = np.linspace(zmin, zmax, 10)` with
`zmin = z_at_value(comv, rmin - 0.1)` and `zmax = z_at_value(comv, rmax + 0.1)`.
`zAt` is the external astropy `z_at_value` inverse of `comv`. -/
noncomputable def redshiftGrid (zAt : ℝ → ℝ) (rmin rmax : ℝ) : List ℝ :=
  npLinspace (zAt (rmin - 0.1)) (zAt (rmax + 0.1)) 10

/-- The distance-to-redshift inversion of `make_simple_lens.py:218-223`:
`x_samp = comv(z_samp)`, `invfunc = interp1d(x_samp, z_samp)`, applied to a
sky radius `r`. -/
noncomputable def invRedshift (comv zAt : ℝ → ℝ) (rmin rmax r : ℝ) : ℝ :=
  interp1d ((redshiftGrid zAt rmin rmax).map (fun z => (comv z, z))) r

/-- Radian-to-arcsecond factor `180/np.pi * 3600` used on
`make_simple_lens.py:214-215`. -/
noncomputable def arcsecPerRad : ℝ := 180 / Real.pi * 3600

/-- `NFW.output_particles` (`make_simple_lens.py:184-255`).  The guard on
lines 202-203 raises `RuntimeError` (the spec's InvalidState) before any
directory or file is touched; on the success path the six arrays are derived
elementwise from `r`, `theta`, `phi` (lines 208-223) and returned as the
emitted output (lines 240-246). -/
noncomputable def output_particles (comv zAt : ℝ → ℝ) (s : Populated) :
    Except PyErr ParticleOutput :=
  if s.populated = false then Except.error PyErr.invalidState
  else
    let halo_r := comv s.halo.redshift
    let trip := s.r.zip (s.theta.zip s.phi)
    let xs := trip.map (fun t => t.1 * Real.sin t.2.1 * Real.cos t.2.2 + halo_r)
    let ys := trip.map (fun t => t.1 * Real.sin t.2.1 * Real.sin t.2.2)
    let zs := trip.map (fun t => t.1 * Real.cos t.2.1)
    let rsky := (xs.zip (ys.zip zs)).map
      (fun t => Real.sqrt (t.1 ^ 2 + t.2.1 ^ 2 + t.2.2 ^ 2))
    let thetaSky := (zs.zip rsky).map (fun t => Real.arccos (t.1 / t.2) * arcsecPerRad)
    let phiSky := (ys.zip xs).map (fun t => Real.arctan (t.1 / t.2) * arcsecPerRad)
    let rmin := (rsky.min?).getD 0
    let rmax := (rsky.max?).getD 0
    let reds := rsky.map (invRedshift comv zAt rmin rmax)
    Except.ok ⟨xs, ys, zs, thetaSky, phiSky, reds⟩

-- --------------------------------------------------------------------
-- the NFW constructor's assert (make_simple_lens.py:71)
-- --------------------------------------------------------------------

/-- Python values a constructor-scope variable can hold (only the
None-or-not distinction matters to the assert). -/
inductive PyVal
  | pyNone
  | float (q : ℚ)
  | obj
  deriving DecidableEq

/-- The identifiers that can be mentioned while the constructor's assert on
`make_simple_lens.py:71` executes: its parameters, plus the misspelled
`m220c` that the assert actually references. -/
inductive PyName
  | self | z | m200c | r200c | c | cM_err | cosmo | seed | m220c
  deriving DecidableEq

/-- Boolean expressions of the shape appearing in the constructor's assert:
`<name> is not None` and short-circuit `or`. -/
inductive BExpr
  | isNotNone (n : PyName)
  | orE (a b : BExpr)

/-- Python evaluation of such an expression: resolving an unbound name raises
`NameError`; `or` short-circuits left to right. -/
def evalB (env : PyName → Option PyVal) : BExpr → Except PyErr Bool
  | BExpr.isNotNone n =>
    match env n with
    | Option.none => Except.error PyErr.nameError
    | Option.some v => Except.ok (decide (v ≠ PyVal.pyNone))
  | BExpr.orE a b =>
    match evalB env a with
    | Except.error e => Except.error e
    | Except.ok true => Except.ok true
    | Except.ok false => evalB env b

/-- Lift an optional Python float argument to a `PyVal`. -/
def pyOfOpt (o : Option ℚ) : PyVal :=
  match o with
  | Option.none => PyVal.pyNone
  | Option.some q => PyVal.float q

/-- The names bound when the assert on `make_simple_lens.py:71` runs: the
constructor parameters `self, z, m200c, r200c, c, cM_err, cosmo, seed`.
No `m220c` is bound anywhere in the module. -/
def initEnv (z : ℚ) (m200c r200c c seed : Option ℚ) : PyName → Option PyVal :=
  fun n =>
    match n with
    | PyName.self => Option.some PyVal.obj
    | PyName.z => Option.some (PyVal.float z)
    | PyName.m200c => Option.some (pyOfOpt m200c)
    | PyName.r200c => Option.some (pyOfOpt r200c)
    | PyName.c => Option.some (pyOfOpt c)
    | PyName.cM_err => Option.some PyVal.obj
    | PyName.cosmo => Option.some PyVal.obj
    | PyName.seed => Option.some (pyOfOpt seed)
    | PyName.m220c => Option.none

/-- The assert's test on `make_simple_lens.py:71`:
`m220c is not None or r200c is not None` (note the `m220c` misspelling of
`m200c`). -/
def initAssertTest : BExpr := BExpr.orE (BExpr.isNotNone PyName.m220c) (BExpr.isNotNone PyName.r200c)

/-- The `NFW.__init__` entry (`make_simple_lens.py:71` onward): the assert's
test is evaluated first; a false test would raise `AssertionError`, and only
then would the attribute assignments and mass/radius derivation of lines
72-112 run. -/
def init (z : ℚ) (m200c r200c c seed : Option ℚ) : Except PyErr Unit :=
  match evalB (initEnv z m200c r200c c seed) initAssertTest with
  | Except.error e => Except.error e
  | Except.ok false => Except.error PyErr.assertionError
  | Except.ok true => Except.ok ()

/-- A trivial radial sampler honouring the external sampler's length
contract, used only to instantiate witnesses. -/
def constRadial : ℕ → ℝ → ℝ → List ℝ := fun n _ _ => List.replicate n 1

/-- A concrete halo with the scenario's mass `1e14` and redshift `0.3`
(concentration and radius standing in for the externally drawn values),
used only to instantiate witnesses. -/
noncomputable def haloEx : Halo := ⟨1e14, 1, 1, 3 / 10⟩

/-- A concrete still-`Constructed` state (the `populated` flag that
`populate_halo` would set is still false), used to instantiate witnesses. -/
noncomputable def unpopulatedNFW : Populated := ⟨haloEx, [], [], [], 0, 1, false⟩

end NFW

-- ====================================================================
-- NFW_test_cases/make_simple_halo.py, class simple_halo
-- ====================================================================

namespace simple_halo

/-- Polar-angle draw of `simple_halo.output_particles`
(`make_simple_halo.py:120`): `theta = np.random.uniform(low=0, high=np.pi)`,
i.e. `low + (high - low) * u` for the unit uniform deviate `u` — drawn
directly, with no arccos transform. -/
noncomputable def thetaDraw (u : ℝ) : ℝ := 0 + (Real.pi - 0) * u

/-- Azimuthal draw of `simple_halo.output_particles`
(`make_simple_halo.py:119`): `phi = np.random.uniform(low=0, high=np.pi*2)`. -/
noncomputable def phiDraw (u : ℝ) : ℝ := 0 + (Real.pi * 2 - 0) * u

/-- Attributes of a constructed `simple_halo`
(`make_simple_halo.py:51-70`); `profile_particles` and `mpp` are `None`
until `populate_halo` fills them (lines 64-66, 94-95). -/
structure State where
  m200c : ℝ
  redshift : ℝ
  r200c : ℝ
  c : ℝ
  profile_particles : Option (List ℝ)
  mpp : Option ℝ

/-- Observable side effects of `simple_halo.output_particles`. -/
inductive Eff
  | makedirs
  | binWrite
  deriving DecidableEq

/-- `simple_halo.output_particles` (`make_simple_halo.py:98-163`).  The
output directory is created first (lines 114-116); only then is
`self.profile_particles` read, so when the halo was never populated
(`profile_particles is None`) the call dies on `len(r)` with a `TypeError`
(line 119) after the directory side effect but before any binary file is
written.  On the success path the six arrays follow lines 118-139 (angular
draws uniform in both coordinates, projection, and `interp1d` redshift
inversion over `x`, all in Mpc/h). -/
noncomputable def output_particles (comv zAt : ℝ → ℝ) (cosmoh : ℝ)
    (udevPhi udevTheta : ℕ → ℝ) (s : State) :
    List Eff × Except PyErr ParticleOutput :=
  match s.profile_particles with
  | Option.none => ([Eff.makedirs], Except.error PyErr.typeError)
  | Option.some r =>
    let phi := (List.range r.length).map (fun i => phiDraw (udevPhi i))
    let theta := (List.range r.length).map (fun i => thetaDraw (udevTheta i))
    let halo_r := comv s.redshift * cosmoh
    let trip := r.zip (theta.zip phi)
    let xs := trip.map (fun t => t.1 * Real.sin t.2.1 * Real.cos t.2.2 + halo_r)
    let ys := trip.map (fun t => t.1 * Real.sin t.2.1 * Real.sin t.2.2)
    let zs := trip.map (fun t => t.1 * Real.cos t.2.1)
    let rsky := (xs.zip (ys.zip zs)).map
      (fun t => Real.sqrt (t.1 ^ 2 + t.2.1 ^ 2 + t.2.2 ^ 2))
    let thetaSky := (zs.zip rsky).map (fun t => Real.arccos (t.1 / t.2) * NFW.arcsecPerRad)
    let phiSky := (ys.zip xs).map (fun t => Real.arctan (t.1 / t.2) * NFW.arcsecPerRad)
    let xmin := (xs.min?).getD 0
    let xmax := (xs.max?).getD 0
    let grid := (npLinspace (zAt ((xmin - 0.1) / cosmoh)) (zAt ((xmax + 0.1) / cosmoh)) 10).map
      (fun zz => (comv zz, zz))
    let reds := xs.map (fun xv => NFW.interp1d grid (xv / cosmoh))
    ([Eff.makedirs, Eff.binWrite, Eff.binWrite, Eff.binWrite,
      Eff.binWrite, Eff.binWrite, Eff.binWrite],
      Except.ok ⟨xs, ys, zs, thetaSky, phiSky, reds⟩)

/-- A concrete never-populated state (mass `1e14`, redshift `0.3`), used to
exhibit the unpopulated-emission behaviour. -/
noncomputable def unpopulatedState : State := ⟨1e14, 3 / 10, 1, 5, Option.none, Option.none⟩

end simple_halo

-- ====================================================================
-- test_cases/make_simple_lens.py, class PointMass
-- ====================================================================

namespace PointMass

/-- `total_particles = int((fov_size*2)**2 * particle_rho)`
(`make_simple_lens.py:375`). -/
def total_particles (fov_size particle_rho : ℚ) : ℕ :=
  (pyInt ((fov_size * 2) ^ 2 * particle_rho)).toNat

/-- `N = int(np.sqrt(total_particles))` (`make_simple_lens.py:376`); the
floor of the real square root of a natural number is `Nat.sqrt`. -/
def gridN (fov_size particle_rho : ℚ) : ℕ := Nat.sqrt (total_particles fov_size particle_rho)

/-- The emitted `x` array (`make_simple_lens.py:372,377,384,390`):
`n` zeros for the stacked point mass, then `total_particles` zeros for the
field, shifted by the halo's comoving distance `halo_r`. -/
def x_arr (n : ℕ) (fov_size particle_rho halo_r : ℚ) : List ℚ :=
  (List.replicate n (0 : ℚ) ++ List.replicate (total_particles fov_size particle_rho) (0 : ℚ)).map
    (fun v => v + halo_r)

/-- The emitted `y` array (`make_simple_lens.py:372,378-380,385`): `n` zeros,
then the raveled `y` meshgrid — the `N`-point `linspace(-fov, fov)` row
repeated `N` times, `N*N` entries in total. -/
def y_arr (n : ℕ) (fov_size particle_rho : ℚ) : List ℚ :=
  List.replicate n (0 : ℚ) ++
    (List.replicate (gridN fov_size particle_rho)
      (npLinspace (-fov_size) fov_size (gridN fov_size particle_rho))).flatten

/-- The emitted `z` array (`make_simple_lens.py:372,378-381,386`): `n` zeros,
then the raveled `z` meshgrid — each `linspace` value repeated `N` times. -/
def z_arr (n : ℕ) (fov_size particle_rho : ℚ) : List ℚ :=
  List.replicate n (0 : ℚ) ++
    (npLinspace (-fov_size) fov_size (gridN fov_size particle_rho)).flatMap
      (fun v => List.replicate (gridN fov_size particle_rho) v)

/-- The emitted `redshift` array (`make_simple_lens.py:394`):
`np.ones(len(x)) * self.redshift`. -/
def redshift_arr (n : ℕ) (fov_size particle_rho halo_r z : ℚ) : List ℚ :=
  (x_arr n fov_size particle_rho halo_r).map (fun _ => z)

end PointMass

-- ====================================================================
-- halo_inputs.py, class multi_plane_inputs
-- ====================================================================

namespace halo_inputs

/-- The `bad_edges` loop of `halo_inputs.py:127-130`:
`for i in range(len(edges)): if abs(comv(halo_z) - comv(edges[i])) <= safe_zone:
bad_edges.append(i)` — walking the edge list while counting the index `i`. -/
def bad_edges (comvHalo safe_zone : ℚ) (comv : ℚ → ℚ) : List ℚ → ℕ → List ℕ
  | [], _ => []
  | e :: rest, i =>
    if |comvHalo - comv e| ≤ safe_zone then i :: bad_edges comvHalo safe_zone comv rest (i + 1)
    else bad_edges comvHalo safe_zone comv rest (i + 1)

/-- The lens-plane edge construction of `multi_plane_inputs.__init__`
(`halo_inputs.py:122-138`), with the external astropy `comoving_distance`
passed as `comv` (in comoving Mpc).  Steps, in source order:
`num_lens_planes = int(depth_mpc / mean_lens_width)` with
`depth_mpc = comv(max_redshift)`;
`lens_plane_edges = np.linspace(0, max_redshift, num_lens_planes + 1)`;
collect the indices of all edges within `safe_zone` Mpc of the halo's
comoving distance (lines 127-130), then delete them one by one **by their
original index** (`np.delete` inside the loop on lines 131-132, here
`List.eraseIdx`); finally drop edges below `min_depth` (line 137). -/
def lens_plane_edges (comv : ℚ → ℚ) (halo_redshift max_redshift mean_lens_width
    safe_zone min_depth : ℚ) : List ℚ :=
  let depth_mpc := comv max_redshift
  let num := (pyInt (depth_mpc / mean_lens_width)).toNat
  let edges0 := npLinspace (0 : ℚ) max_redshift (num + 1)
  let bad := bad_edges (comv halo_redshift) safe_zone comv edges0 0
  let edges1 := bad.foldl (fun l i => l.eraseIdx i) edges0
  edges1.filter (fun e => decide (min_depth ≤ e))

/-- `num_lens_planes` after line 138: `len(lens_plane_edges) - 1`. -/
def num_lens_planes (comv : ℚ → ℚ) (halo_redshift max_redshift mean_lens_width
    safe_zone min_depth : ℚ) : ℤ :=
  (lens_plane_edges comv halo_redshift max_redshift mean_lens_width
    safe_zone min_depth).length - 1

/-- A strictly increasing stand-in for the external cosmology's comoving
distance, measuring 100 Mpc per unit redshift; used to exhibit concrete
lens-plane behaviour. -/
def comvLinear : ℚ → ℚ := fun z => 100 * z

end halo_inputs

-- ====================================================================
-- helper lemmas
-- ====================================================================

theorem log_gt_one_sub_inv {x : ℝ} (hx : 1 < x) : 1 - 1 / x < Real.log x := by
  have h0 : (0 : ℝ) < 1 / x := by positivity
  have h1 : (1 : ℝ) / x ≠ 1 := by
    rw [one_div]
    intro h
    exact (ne_of_gt hx) (inv_eq_one.mp h)
  have h2 := Real.log_lt_sub_one_of_pos h0 h1
  rw [one_div, Real.log_inv] at h2
  rw [one_div]
  linarith

theorem nfw_mu_pos {c : ℝ} (hc : 0 < c) : 0 < Real.log (1 + c) - c / (1 + c) := by
  have h1 : (1 : ℝ) < 1 + c := by linarith
  have h2 := log_gt_one_sub_inv h1
  have h3 : 1 - 1 / (1 + c) = c / (1 + c) := by
    field_simp
  linarith

theorem nfw_mu_strict5 {c : ℝ} (hc : 0 < c) :
    Real.log (1 + c) - c / (1 + c) <
      Real.log (1 + 5 * c) - 5 * c / (1 + 5 * c) := by
  have h1c : (0 : ℝ) < 1 + c := by linarith
  have h15c : (0 : ℝ) < 1 + 5 * c := by linarith
  have hy : (1 : ℝ) < (1 + 5 * c) / (1 + c) := by
    rw [lt_div_iff₀ h1c]
    linarith
  have hlog := log_gt_one_sub_inv hy
  have hsplit : Real.log ((1 + 5 * c) / (1 + c)) =
      Real.log (1 + 5 * c) - Real.log (1 + c) :=
    Real.log_div (ne_of_gt h15c) (ne_of_gt h1c)
  have hinv : 1 - 1 / ((1 + 5 * c) / (1 + c)) = 1 - (1 + c) / (1 + 5 * c) := by
    rw [one_div_div]
  have key : 1 - (1 + c) / (1 + 5 * c) -
      (5 * c / (1 + 5 * c) - c / (1 + c)) = 4 * c ^ 2 / ((1 + c) * (1 + 5 * c)) := by
    field_simp
    ring
  have hnn : (0 : ℝ) ≤ 4 * c ^ 2 / ((1 + c) * (1 + 5 * c)) := by positivity
  rw [hsplit, hinv] at hlog
  linarith

theorem length_flatten_replicate {α : Type} (k : ℕ) (l : List α) :
    ((List.replicate k l).flatten).length = k * l.length := by
  induction k with
  | zero => simp
  | succ n ih =>
    rw [List.replicate_succ]
    simp only [List.flatten_cons, List.length_append, ih]
    ring

theorem length_flatMap_replicate {α : Type} (l : List α) (k : ℕ) :
    (l.flatMap (fun v => List.replicate k v)).length = l.length * k := by
  induction l with
  | nil => simp
  | cons a t ih =>
    rw [List.flatMap_cons]
    simp only [List.length_append, List.length_replicate, ih, List.length_cons]
    ring

theorem lastX_cons_cons (p q : ℝ × ℝ) (rest : List (ℝ × ℝ)) :
    NFW.lastX (p :: q :: rest) = NFW.lastX (q :: rest) := rfl

theorem lastX_eq_getLast (l : List (ℝ × ℝ)) :
    NFW.lastX l = ((l.getLast?).map Prod.fst).getD 0 := by
  induction l with
  | nil => rfl
  | cons p t ih =>
    cases t with
    | nil => rfl
    | cons q rest =>
      rw [lastX_cons_cons, List.getLast?_cons_cons]
      exact ih

theorem interp1d_head_lt (l : List (ℝ × ℝ)) (p : ℝ × ℝ)
    (hch : (p :: l).Chain' (fun a b => a.1 < b.1 ∧ a.2 < b.2))
    (r : ℝ) (h1 : p.1 < r) (h2 : r ≤ NFW.lastX (p :: l)) :
    p.2 < NFW.interp1d (p :: l) r := by
  induction l generalizing p with
  | nil =>
    simp only [NFW.lastX] at h2
    linarith
  | cons q rest ih =>
    rw [List.chain'_cons] at hch
    obtain ⟨⟨hx, hy⟩, hch2⟩ := hch
    by_cases hr : r ≤ q.1
    · have step : NFW.interp1d (p :: q :: rest) r
          = p.2 + (q.2 - p.2) * (r - p.1) / (q.1 - p.1) := by
        simp only [NFW.interp1d]
        rw [if_pos hr]
      rw [step]
      have hd : 0 < q.1 - p.1 := by linarith
      have hpos : 0 < (q.2 - p.2) * (r - p.1) / (q.1 - p.1) :=
        div_pos (mul_pos (by linarith) (by linarith)) hd
      linarith
    · have step : NFW.interp1d (p :: q :: rest) r = NFW.interp1d (q :: rest) r := by
        simp only [NFW.interp1d]
        rw [if_neg hr]
      rw [step]
      push_neg at hr
      have h2q : r ≤ NFW.lastX (q :: rest) := by
        rw [lastX_cons_cons] at h2
        exact h2
      exact lt_trans hy (ih q hch2 hr h2q)

theorem interp1d_strict (l : List (ℝ × ℝ)) (p : ℝ × ℝ)
    (hch : (p :: l).Chain' (fun a b => a.1 < b.1 ∧ a.2 < b.2))
    (r1 r2 : ℝ) (h0 : p.1 ≤ r1) (h12 : r1 < r2) (hl : r2 ≤ NFW.lastX (p :: l)) :
    NFW.interp1d (p :: l) r1 < NFW.interp1d (p :: l) r2 := by
  induction l generalizing p with
  | nil =>
    simp only [NFW.lastX] at hl
    linarith
  | cons q rest ih =>
    rw [List.chain'_cons] at hch
    obtain ⟨⟨hx, hy⟩, hch2⟩ := hch
    have hd : 0 < q.1 - p.1 := by linarith
    by_cases hr2 : r2 ≤ q.1
    · have hr1 : r1 ≤ q.1 := le_of_lt (lt_of_lt_of_le h12 hr2)
      have s1 : NFW.interp1d (p :: q :: rest) r1
          = p.2 + (q.2 - p.2) * (r1 - p.1) / (q.1 - p.1) := by
        simp only [NFW.interp1d]
        rw [if_pos hr1]
      have s2 : NFW.interp1d (p :: q :: rest) r2
          = p.2 + (q.2 - p.2) * (r2 - p.1) / (q.1 - p.1) := by
        simp only [NFW.interp1d]
        rw [if_pos hr2]
      rw [s1, s2]
      have hnum : (q.2 - p.2) * (r1 - p.1) < (q.2 - p.2) * (r2 - p.1) :=
        mul_lt_mul_of_pos_left (by linarith) (by linarith)
      have := (div_lt_div_right hd).mpr hnum
      linarith
    · push_neg at hr2
      have hlast : r2 ≤ NFW.lastX (q :: rest) := by
        rw [lastX_cons_cons] at hl
        exact hl
      have s2 : NFW.interp1d (p :: q :: rest) r2 = NFW.interp1d (q :: rest) r2 := by
        simp only [NFW.interp1d]
        rw [if_neg (not_le.mpr hr2)]
      by_cases hr1 : r1 ≤ q.1
      · have s1 : NFW.interp1d (p :: q :: rest) r1
            = p.2 + (q.2 - p.2) * (r1 - p.1) / (q.1 - p.1) := by
          simp only [NFW.interp1d]
          rw [if_pos hr1]
        rw [s1, s2]
        have hnum : (q.2 - p.2) * (r1 - p.1) ≤ (q.2 - p.2) * (q.1 - p.1) :=
          mul_le_mul_of_nonneg_left (by linarith) (by linarith)
        have hdiv := (div_le_div_right hd).mpr hnum
        have hcancel : (q.2 - p.2) * (q.1 - p.1) / (q.1 - p.1) = q.2 - p.2 :=
          mul_div_cancel_right₀ _ (ne_of_gt hd)
        have htail : q.2 < NFW.interp1d (q :: rest) r2 :=
          interp1d_head_lt rest q hch2 r2 hr2 hlast
        linarith
      · push_neg at hr1
        have s1 : NFW.interp1d (p :: q :: rest) r1 = NFW.interp1d (q :: rest) r1 := by
          simp only [NFW.interp1d]
          rw [if_neg (not_le.mpr hr1)]
        rw [s1, s2]
        exact ih q hch2 (le_of_lt hr1) hlast

theorem npLinspace_length {α : Type} [Field α] (a b : α) (count : ℕ) :
    (npLinspace a b count).length = count := by
  simp [npLinspace]

theorem npLinspace_head (a b : ℝ) (n : ℕ) :
    (npLinspace a b (n + 1)).head? = Option.some a := by
  rw [npLinspace, List.range_succ_eq_map]
  simp

theorem npLinspace_ten_getLast (a b : ℝ) :
    (npLinspace a b 10).getLast? = Option.some (a + (b - a) * 9 / 9) := by
  rw [npLinspace, show (10 : ℕ) = 9 + 1 from rfl, List.range_succ, List.map_append]
  rw [List.map_singleton, List.getLast?_concat]
  norm_num

theorem npLinspace_ten_chain (a b : ℝ) (hab : a < b) :
    (npLinspace a b 10).Chain' (· < ·) := by
  rw [npLinspace, List.chain'_map, show (10 : ℕ) = Nat.succ 9 from rfl,
    List.chain'_range_succ]
  intro m hm
  have hb : 0 < b - a := by linarith
  have hd : (0 : ℝ) < ((Nat.succ 9 : ℕ) : ℝ) - 1 := by norm_num
  apply add_lt_add_left
  apply (div_lt_div_right hd).mpr
  apply mul_lt_mul_of_pos_left _ hb
  exact_mod_cast Nat.lt_succ_self m

-- ====================================================================
-- Claim C8
-- ====================================================================

/-- Claim C8: provided the external comoving distance is strictly increasing
and `z_at_value` inverts it, the code's distance-to-redshift inversion is
strictly increasing on the bracket `[rmin - 0.1, rmax + 0.1]`: for any two
sky radii `r1 < r2` inside the bracket, `redshift(r1) < redshift(r2)`.
Moreover the inversion grid has exactly 10 points (at least the claimed 10),
and its comoving-distance samples span exactly that bracket: the first knot
sits at `rmin - 0.1` and the last at `rmax + 0.1`. -/
theorem c8_inversion_monotone (comv zAt : ℝ → ℝ) (hmono : StrictMono comv)
    (hinv : ∀ d, comv (zAt d) = d) (rmin rmax r1 r2 : ℝ)
    (hbr : rmin - 0.1 < rmax + 0.1)
    (h1 : rmin - 0.1 ≤ r1) (h12 : r1 < r2) (h2 : r2 ≤ rmax + 0.1) :
    NFW.invRedshift comv zAt rmin rmax r1 < NFW.invRedshift comv zAt rmin rmax r2 ∧
      (NFW.redshiftGrid zAt rmin rmax).length = 10 ∧
      ((NFW.redshiftGrid zAt rmin rmax).map comv).head? = Option.some (rmin - 0.1) ∧
      ((NFW.redshiftGrid zAt rmin rmax).map comv).getLast? = Option.some (rmax + 0.1) := by
  have hcmin : comv (zAt (rmin - 0.1)) = rmin - 0.1 := hinv _
  have hcmax : comv (zAt (rmax + 0.1)) = rmax + 0.1 := hinv _
  have hzlt : zAt (rmin - 0.1) < zAt (rmax + 0.1) := by
    apply hmono.lt_iff_lt.mp
    rw [hcmin, hcmax]
    exact hbr
  have hgrid : NFW.redshiftGrid zAt rmin rmax
      = npLinspace (zAt (rmin - 0.1)) (zAt (rmax + 0.1)) 10 := rfl
  have hhead : (NFW.redshiftGrid zAt rmin rmax).head? = Option.some (zAt (rmin - 0.1)) := by
    rw [hgrid]
    have := npLinspace_head (zAt (rmin - 0.1)) (zAt (rmax + 0.1)) 9
    simpa using this
  have hlastval : zAt (rmin - 0.1) + (zAt (rmax + 0.1) - zAt (rmin - 0.1)) * 9 / 9
      = zAt (rmax + 0.1) := by ring
  have hglast : (NFW.redshiftGrid zAt rmin rmax).getLast? = Option.some (zAt (rmax + 0.1)) := by
    rw [hgrid, npLinspace_ten_getLast, hlastval]
  have hchz : (NFW.redshiftGrid zAt rmin rmax).Chain' (· < ·) := by
    rw [hgrid]
    exact npLinspace_ten_chain _ _ hzlt
  refine ⟨?_, by rw [hgrid]; exact npLinspace_length _ _ _, ?_, ?_⟩
  · -- strict monotonicity via the knot list
    have hchk : ((NFW.redshiftGrid zAt rmin rmax).map (fun z => (comv z, z))).Chain'
        (fun a b => a.1 < b.1 ∧ a.2 < b.2) := by
      rw [List.chain'_map]
      exact hchz.imp (fun a b hab => ⟨hmono hab, hab⟩)
    have hkhead : ((NFW.redshiftGrid zAt rmin rmax).map (fun z => (comv z, z))).head?
        = Option.some (comv (zAt (rmin - 0.1)), zAt (rmin - 0.1)) := by
      rw [List.head?_map, hhead]
      rfl
    have hklast : ((NFW.redshiftGrid zAt rmin rmax).map (fun z => (comv z, z))).getLast?
        = Option.some (comv (zAt (rmax + 0.1)), zAt (rmax + 0.1)) := by
      rw [List.getLast?_map, hglast]
      rfl
    cases hk : (NFW.redshiftGrid zAt rmin rmax).map (fun z => (comv z, z)) with
    | nil =>
      rw [hk] at hkhead
      exact absurd hkhead (by simp)
    | cons k0 kt =>
      rw [hk] at hkhead hklast hchk
      have hk0 : k0 = (comv (zAt (rmin - 0.1)), zAt (rmin - 0.1)) := by
        simpa using hkhead
      have hlx : NFW.lastX (k0 :: kt) = comv (zAt (rmax + 0.1)) := by
        rw [lastX_eq_getLast, hklast]
        rfl
      have hmain := interp1d_strict kt k0 hchk r1 r2
        (by rw [hk0]; rw [hcmin]; exact h1) h12
        (by rw [hlx, hcmax]; exact h2)
      unfold NFW.invRedshift
      rw [hk]
      exact hmain
  · rw [List.head?_map, hhead]
    simp [hcmin]
  · rw [List.getLast?_map, hglast]
    simp [hcmax]

/-- Witness for C8 with the identity cosmology, `rmin = rmax = 0`,
`r1 = 0 < r2 = 1/20` inside the bracket `[-0.1, 0.1]`. -/
theorem c8_witness :
    NFW.invRedshift id id 0 0 0 < NFW.invRedshift id id 0 0 (1 / 20) ∧
      (NFW.redshiftGrid id 0 0).length = 10 ∧
      ((NFW.redshiftGrid id 0 0).map id).head? = Option.some ((0 : ℝ) - 0.1) ∧
      ((NFW.redshiftGrid id 0 0).map id).getLast? = Option.some ((0 : ℝ) + 0.1) :=
  c8_inversion_monotone id id strictMono_id (fun _ => rfl) 0 0 0 (1 / 20)
    (by norm_num) (by norm_num) (by norm_num) (by norm_num)

-- ====================================================================
-- Claim C7
-- ====================================================================

/-- Claim C7: for every concentration `c > 0` and radius `r200 > 0`, the
closed-form NFW enclosed mass evaluated at `rfrac = 1` (so `r_max = r200`)
equals `M200`: the numerator and denominator of `M_enc` coincide there. -/
theorem c7_M_enc_at_r200 (m c r : ℝ) (hc : 0 < c) (hr : 0 < r) :
    NFW.M_enc m c r 1 = m := by
  have hc0 : c ≠ 0 := ne_of_gt hc
  have hr0 : r ≠ 0 := ne_of_gt hr
  have h1c : (1 : ℝ) + c ≠ 0 := by positivity
  have hrc : r / c ≠ 0 := div_ne_zero hr0 hc0
  have e1 : (r / c + 1 * r) / (r / c) = 1 + c := by
    field_simp
    ring
  have e2 : 1 * r / (1 * r + r / c) = c / (1 + c) := by
    rw [div_eq_div_iff (by positivity) (by positivity)]
    field_simp
    ring
  unfold NFW.M_enc
  rw [e1, e2, mul_div_assoc, div_self (ne_of_gt (nfw_mu_pos hc)), mul_one]

/-- Witness for C7 at `m = 5`, `c = 1`, `r = 1`. -/
theorem c7_witness : (0 : ℝ) < 1 ∧ NFW.M_enc 5 1 1 1 = 5 :=
  ⟨by norm_num, c7_M_enc_at_r200 5 1 1 (by norm_num) (by norm_num)⟩

-- ====================================================================
-- Claim C9
-- ====================================================================

/-- Claim C9: for every lens/source pair the code's critical surface density
equals `vc^2/(4 pi G) * Da(zs) / (Da(zl) * (Da(zs) - Da(zl)))`, built from
angular diameter distances only; it carries no extra redshift-dependent
factor such as `(1+zl)^2` — the lens redshift enters only through `Da`, so
two lens redshifts with the same `Da` give the same value. -/
theorem c9_sigma_crit_formula (vc G : ℝ) (Da : ℝ → ℝ) (zl zl' zs : ℝ)
    (h : Da zl = Da zl') :
    cosmology.sigma_crit vc G Da zl zs =
        vc ^ 2 / (4 * Real.pi * G) * (Da zs / (Da zl * (Da zs - Da zl))) ∧
      cosmology.sigma_crit vc G Da zl zs = cosmology.sigma_crit vc G Da zl' zs := by
  constructor
  · unfold cosmology.sigma_crit cosmology.Da2
    ring
  · unfold cosmology.sigma_crit cosmology.Da2
    rw [h]

/-- Witness for C9 with the constant distance function at
`zl = 0`, `zl' = 1`, `zs = 2`. -/
theorem c9_witness :
    cosmology.DaConst 0 = cosmology.DaConst 1 ∧
      (cosmology.sigma_crit 1 1 cosmology.DaConst 0 2 =
          1 ^ 2 / (4 * Real.pi * 1) *
            (cosmology.DaConst 2 / (cosmology.DaConst 0 * (cosmology.DaConst 2 - cosmology.DaConst 0))) ∧
        cosmology.sigma_crit 1 1 cosmology.DaConst 0 2 =
          cosmology.sigma_crit 1 1 cosmology.DaConst 1 2) :=
  ⟨rfl, c9_sigma_crit_formula 1 1 cosmology.DaConst 0 1 2 rfl⟩

-- ====================================================================
-- Claim C10
-- ====================================================================

/-- Claim C10: `Dc2(z1, z2)` returns `0` for all redshifts (the source
computes `Dc(z2) - Dc(z2)`), and — since the external comoving distance is
strictly increasing (spec section 3 invariant) — it differs from
`Dc(z2) - Dc(z1)` whenever `z1 ≠ z2`. -/
theorem c10_Dc2_always_zero (Dc : ℝ → ℝ) (z1 z2 : ℝ) (hmono : StrictMono Dc)
    (hne : z1 ≠ z2) :
    cosmology.Dc2 Dc z1 z2 = 0 ∧ cosmology.Dc2 Dc z1 z2 ≠ Dc z2 - Dc z1 := by
  refine ⟨by unfold cosmology.Dc2; ring, ?_⟩
  unfold cosmology.Dc2
  have hDne : Dc z1 ≠ Dc z2 := fun h => hne (hmono.injective h)
  intro hcontra
  exact hDne (by linarith)

/-- Witness for C10 with the identity distance function at `z1 = 0`,
`z2 = 1`. -/
theorem c10_witness :
    StrictMono (id : ℝ → ℝ) ∧ (0 : ℝ) ≠ 1 ∧
      (cosmology.Dc2 id 0 1 = 0 ∧ cosmology.Dc2 id 0 1 ≠ id 1 - id 0) :=
  ⟨strictMono_id, by norm_num, c10_Dc2_always_zero id 0 1 strictMono_id (by norm_num)⟩

-- ====================================================================
-- Claim C1
-- ====================================================================

/-- Claim C1 counterexample: in `simple_halo.output_particles`
(`make_simple_halo.py:120`) the polar angle is drawn directly as
`Uniform(0, pi)`; applied to the underlying unit deviate `0` it yields `0`,
which is not the arccos transform `arccos(2*0 - 1) = pi` that the claim
asserts for every halo population. -/
theorem c1_counterexample :
    simple_halo.thetaDraw 0 = 0 ∧ simple_halo.thetaDraw 0 ≠ Real.arccos (2 * 0 - 1) := by
  constructor
  · unfold simple_halo.thetaDraw
    ring
  · unfold simple_halo.thetaDraw
    have h : (2 * (0 : ℝ) - 1) = -1 := by norm_num
    rw [h, Real.arccos_neg_one]
    simpa using (Real.pi_ne_zero).symm

/-- Claim C1 (amended): in `NFW.populate_halo` the angular draws do satisfy
the claim — `phi ∈ [0, 2*pi)`, `theta = arccos(2v-1) ∈ [0, pi]` and
`cos(theta) = 2v - 1` (the affine image of the uniform deviate, uniform on
`[-1, 1]`); but in `simple_halo.output_particles` the polar angle is drawn
directly as `Uniform(0, pi)`, i.e. `theta = pi * u`. -/
theorem c1_angular_draws (v u : ℝ) (hv0 : 0 ≤ v) (hv1 : v ≤ 1)
    (hu0 : 0 ≤ u) (hu1 : u < 1) :
    (0 ≤ NFW.phiDraw u ∧ NFW.phiDraw u < 2 * Real.pi) ∧
      (0 ≤ NFW.thetaDraw v ∧ NFW.thetaDraw v ≤ Real.pi) ∧
      Real.cos (NFW.thetaDraw v) = 2 * v - 1 ∧
      simple_halo.thetaDraw u = Real.pi * u := by
  have hpi := Real.pi_pos
  refine ⟨⟨?_, ?_⟩, ⟨Real.arccos_nonneg _, Real.arccos_le_pi _⟩, ?_, ?_⟩
  · unfold NFW.phiDraw
    have h1 : 0 ≤ (2 * Real.pi - 0) * u := mul_nonneg (by nlinarith) hu0
    linarith
  · unfold NFW.phiDraw
    have h2pi : (0 : ℝ) < 2 * Real.pi := by positivity
    calc 0 + (2 * Real.pi - 0) * u = (2 * Real.pi) * u := by ring
    _ < (2 * Real.pi) * 1 := by
        exact mul_lt_mul_of_pos_left hu1 h2pi
    _ = 2 * Real.pi := by ring
  · unfold NFW.thetaDraw
    exact Real.cos_arccos (by linarith) (by linarith)
  · unfold simple_halo.thetaDraw
    ring

/-- Claim C2: in the scenario `M200c = 1e14`, `N = 10000`, `rfrac = 5` (the
concentration and radius drawn by the external samplers being positive, and
the external radial sampler honouring its length contract), `populate_halo`
yields 10000 particles in each of `r`, `theta`, `phi` before any clipping,
and the mass per particle is `M_enc(rfrac=5)/10000` computed by the
closed-form NFW formula — which differs from `M200c/10000`. -/
theorem c2_populate_scenario (hh : NFW.Halo) (cosmoh : ℝ)
    (mcRadial : ℕ → ℝ → ℝ → List ℝ) (vdev udev : ℕ → ℝ)
    (hm : hh.m200c = 1e14) (hc : 0 < hh.c) (hr : 0 < hh.r200c)
    (hlen : (mcRadial 10000 (5 * hh.c) (5 * (hh.r200c * cosmoh))).length = 10000) :
    (NFW.populate_halo hh cosmoh mcRadial vdev udev 10000 5 Option.none).r.length = 10000 ∧
      (NFW.populate_halo hh cosmoh mcRadial vdev udev 10000 5 Option.none).theta.length = 10000 ∧
      (NFW.populate_halo hh cosmoh mcRadial vdev udev 10000 5 Option.none).phi.length = 10000 ∧
      (NFW.populate_halo hh cosmoh mcRadial vdev udev 10000 5 Option.none).mpp
        = NFW.M_enc hh.m200c hh.c hh.r200c 5 / 10000 ∧
      (NFW.populate_halo hh cosmoh mcRadial vdev udev 10000 5 Option.none).mpp
        ≠ hh.m200c / 10000 := by
  have hM : NFW.M_enc hh.m200c hh.c hh.r200c 5 ≠ hh.m200c := by
    have hc0 : hh.c ≠ 0 := ne_of_gt hc
    have hr0 : hh.r200c ≠ 0 := ne_of_gt hr
    have e1 : (hh.r200c / hh.c + 5 * hh.r200c) / (hh.r200c / hh.c) = 1 + 5 * hh.c := by
      field_simp
      ring
    have e2 : 5 * hh.r200c / (5 * hh.r200c + hh.r200c / hh.c)
        = 5 * hh.c / (1 + 5 * hh.c) := by
      rw [div_eq_div_iff (by positivity) (by positivity)]
      field_simp
      ring
    unfold NFW.M_enc
    rw [e1, e2]
    have hd : 0 < Real.log (1 + hh.c) - hh.c / (1 + hh.c) := nfw_mu_pos hc
    have hlt := nfw_mu_strict5 hc
    have hm0 : 0 < hh.m200c := by
      rw [hm]
      norm_num
    have hgt : hh.m200c <
        hh.m200c * (Real.log (1 + 5 * hh.c) - 5 * hh.c / (1 + 5 * hh.c)) /
          (Real.log (1 + hh.c) - hh.c / (1 + hh.c)) := by
      have h1 : (1 : ℝ) <
          (Real.log (1 + 5 * hh.c) - 5 * hh.c / (1 + 5 * hh.c)) /
            (Real.log (1 + hh.c) - hh.c / (1 + hh.c)) :=
        (one_lt_div hd).mpr hlt
      calc hh.m200c = hh.m200c * 1 := by ring
        _ < hh.m200c * ((Real.log (1 + 5 * hh.c) - 5 * hh.c / (1 + 5 * hh.c)) /
              (Real.log (1 + hh.c) - hh.c / (1 + hh.c))) :=
            mul_lt_mul_of_pos_left h1 hm0
        _ = hh.m200c * (Real.log (1 + 5 * hh.c) - 5 * hh.c / (1 + 5 * hh.c)) /
              (Real.log (1 + hh.c) - hh.c / (1 + hh.c)) := by ring
    exact ne_of_gt hgt
  refine ⟨?_, ?_, ?_, ?_, ?_⟩
  · simp only [NFW.populate_halo, List.length_map]
    exact hlen
  · simp only [NFW.populate_halo, List.length_map, List.length_range]
    exact hlen
  · simp only [NFW.populate_halo, List.length_map, List.length_range]
    exact hlen
  · simp only [NFW.populate_halo]
    norm_num
  · simp only [NFW.populate_halo]
    intro hcontra
    apply hM
    have h104 : ((10000 : ℕ) : ℝ) = 10000 := by norm_num
    rw [h104] at hcontra
    linarith

/-- Witness for C2 with the concrete halo `haloEx`, `cosmo.h = 1`, the
length-honouring constant radial sampler and zero deviate streams. -/
theorem c2_witness :
    NFW.haloEx.m200c = 1e14 ∧ 0 < NFW.haloEx.c ∧ 0 < NFW.haloEx.r200c ∧
      (NFW.constRadial 10000 (5 * NFW.haloEx.c) (5 * (NFW.haloEx.r200c * 1))).length = 10000 ∧
      ((NFW.populate_halo NFW.haloEx 1 NFW.constRadial (fun _ => 0) (fun _ => 0) 10000 5
            Option.none).r.length = 10000 ∧
        (NFW.populate_halo NFW.haloEx 1 NFW.constRadial (fun _ => 0) (fun _ => 0) 10000 5
            Option.none).theta.length = 10000 ∧
        (NFW.populate_halo NFW.haloEx 1 NFW.constRadial (fun _ => 0) (fun _ => 0) 10000 5
            Option.none).phi.length = 10000 ∧
        (NFW.populate_halo NFW.haloEx 1 NFW.constRadial (fun _ => 0) (fun _ => 0) 10000 5
            Option.none).mpp = NFW.M_enc NFW.haloEx.m200c NFW.haloEx.c NFW.haloEx.r200c 5 / 10000 ∧
        (NFW.populate_halo NFW.haloEx 1 NFW.constRadial (fun _ => 0) (fun _ => 0) 10000 5
            Option.none).mpp ≠ NFW.haloEx.m200c / 10000) :=
  ⟨rfl, by norm_num [NFW.haloEx], by norm_num [NFW.haloEx],
    by simp only [NFW.constRadial, List.length_replicate],
    c2_populate_scenario NFW.haloEx 1 NFW.constRadial (fun _ => 0) (fun _ => 0) rfl
      (by norm_num [NFW.haloEx]) (by norm_num [NFW.haloEx])
      (by simp only [NFW.constRadial, List.length_replicate])⟩

/-- Claim C3: evaluation of the lens-plane edge construction exhibiting the
stale-index deletion bug of `halo_inputs.py:131-132`.  With the strictly
increasing comoving distance `comvLinear` (100 Mpc per unit redshift), halo
redshift 3.5, shell depth `max_redshift = 10`, `mean_lens_width = 100`,
`safe_zone = 50` and `min_depth = 0`, the edges `3` and `4` (comoving 300 and
400 Mpc, both within 50 Mpc of the halo's 350 Mpc) are flagged; deleting by
original index removes edge `3` and then — after the shift — edge `5`
instead of `4`.  The final edge array keeps edge `4`, whose comoving distance
is within `safe_zone` of the halo's, and has lost the valid edge `5`,
contradicting the claimed invariant (and the code's own comment on line
126). -/
theorem c3_safe_zone_violated :
    StrictMono halo_inputs.comvLinear ∧
      halo_inputs.lens_plane_edges halo_inputs.comvLinear (7 / 2) 10 100 50 0
        = [0, 1, 2, 4, 6, 7, 8, 9, 10] ∧
      (4 : ℚ) ∈ halo_inputs.lens_plane_edges halo_inputs.comvLinear (7 / 2) 10 100 50 0 ∧
      |halo_inputs.comvLinear (7 / 2) - halo_inputs.comvLinear 4| ≤ 50 ∧
      (5 : ℚ) ∉ halo_inputs.lens_plane_edges halo_inputs.comvLinear (7 / 2) 10 100 50 0 ∧
      50 < |halo_inputs.comvLinear (7 / 2) - halo_inputs.comvLinear 5| := by
  have hval : halo_inputs.lens_plane_edges halo_inputs.comvLinear (7 / 2) 10 100 50 0
      = [0, 1, 2, 4, 6, 7, 8, 9, 10] := by
    have hnum : (pyInt (halo_inputs.comvLinear 10 / 100)).toNat = 10 := by
      have h1 : halo_inputs.comvLinear 10 / 100 = 10 := by norm_num [halo_inputs.comvLinear]
      rw [h1]
      have h2 : (10 : ℚ).num = 10 := rfl
      have h3 : (10 : ℚ).den = 1 := rfl
      simp [pyInt, h2, h3]
    have hrange : List.range 11 = [0, 1, 2, 3, 4, 5, 6, 7, 8, 9, 10] := by decide
    have hlin : npLinspace (0 : ℚ) 10 11 = [0, 1, 2, 3, 4, 5, 6, 7, 8, 9, 10] := by
      rw [npLinspace, hrange]
      norm_num
    have hbad : halo_inputs.bad_edges (halo_inputs.comvLinear (7 / 2)) 50 halo_inputs.comvLinear
        ([0, 1, 2, 3, 4, 5, 6, 7, 8, 9, 10] : List ℚ) 0 = [3, 4] := by
      norm_num [halo_inputs.bad_edges, halo_inputs.comvLinear]
    rw [halo_inputs.lens_plane_edges]
    simp only [hnum, hlin, hbad]
    norm_num [List.eraseIdx, List.filter]
  refine ⟨?_, hval, ?_, ?_, ?_, ?_⟩
  · intro a b h
    simp only [halo_inputs.comvLinear]
    linarith
  · rw [hval]
    norm_num
  · norm_num [halo_inputs.comvLinear]
  · rw [hval]
    norm_num
  · norm_num [halo_inputs.comvLinear]

/-- Claim C4: evaluation of the point-mass emission arrays at
`fov_size = 1`, `particle_rho = 50`, `n = 10000` (and arbitrary halo
distance and redshift).  The field population is `int((2*1)^2*50) = 200`
particles in `x` but `N^2 = (int(sqrt(200)))^2 = 196` in `y` and `z`
(`make_simple_lens.py:375-381`), so the emitted per-particle arrays do not
share one length: `x` and `redshift` have 10200 entries while `y` and `z`
have 10196. -/
theorem c4_point_mass_ragged :
    PointMass.total_particles 1 50 = 200 ∧
      PointMass.gridN 1 50 = 14 ∧
      (PointMass.x_arr 10000 1 50 0).length = 10200 ∧
      (PointMass.y_arr 10000 1 50).length = 10196 ∧
      (PointMass.z_arr 10000 1 50).length = 10196 ∧
      (PointMass.redshift_arr 10000 1 50 0 (1 / 2)).length = 10200 := by
  have htot : PointMass.total_particles 1 50 = 200 := by
    have h1 : ((1 : ℚ) * 2) ^ 2 * 50 = 200 := by norm_num
    rw [PointMass.total_particles, h1]
    have h2 : (200 : ℚ).num = 200 := rfl
    have h3 : (200 : ℚ).den = 1 := rfl
    simp [pyInt, h2, h3]
  have hN : PointMass.gridN 1 50 = 14 := by
    rw [PointMass.gridN, htot]
    have h1 : 14 ≤ Nat.sqrt 200 := Nat.le_sqrt.mpr (by norm_num)
    have h2 : Nat.sqrt 200 < 15 := Nat.sqrt_lt.mpr (by norm_num)
    omega
  have hx : (PointMass.x_arr 10000 1 50 0).length = 10200 := by
    rw [PointMass.x_arr, htot]
    simp only [List.length_map, List.length_append, List.length_replicate]
  refine ⟨htot, hN, hx, ?_, ?_, ?_⟩
  · rw [PointMass.y_arr, hN]
    simp only [List.length_append, List.length_replicate, length_flatten_replicate,
      npLinspace_length]
  · rw [PointMass.z_arr, hN]
    simp only [List.length_append, List.length_replicate, length_flatMap_replicate,
      npLinspace_length]
  · rw [PointMass.redshift_arr, List.length_map]
    exact hx

/-- Claim C5: evaluation of the NFW constructor's argument check.  The
assert on `make_simple_lens.py:71` reads the unbound name `m220c` (a typo
for `m200c`), so Python raises `NameError` before anything else — both when
exactly one of `m200c`/`r200c` is supplied (where the claim says
construction must succeed) and when neither is (where the claim says it must
fail with the InvalidParameter assert). -/
theorem c5_constructor_name_error :
    NFW.init (3 / 10) (Option.some 100000000000000) Option.none Option.none (Option.some 42)
        = Except.error PyErr.nameError ∧
      NFW.init (3 / 10) Option.none Option.none Option.none Option.none
        = Except.error PyErr.nameError :=
  ⟨rfl, rfl⟩

/-- Claim C6 counterexample: invoking `simple_halo.output_particles` on a
never-populated halo does not fail with the InvalidState guard error — there
is no such guard in `make_simple_halo.py`; the call dies with a `TypeError`
from `len(None)` (line 119), and only after the output directory has been
created (lines 114-116).  No particle binary is written. -/
theorem c6_counterexample :
    (simple_halo.output_particles id id 1 (fun _ => 0) (fun _ => 0)
          simple_halo.unpopulatedState).2 = Except.error PyErr.typeError ∧
      PyErr.typeError ≠ PyErr.invalidState ∧
      (simple_halo.output_particles id id 1 (fun _ => 0) (fun _ => 0)
          simple_halo.unpopulatedState).1 = [simple_halo.Eff.makedirs] :=
  ⟨rfl, by decide, rfl⟩

/-- Claim C6 (amended): `NFW.output_particles` invoked while still
unpopulated fails with the InvalidState `RuntimeError` and emits nothing;
`simple_halo.output_particles` invoked while unpopulated also emits no
particle file, but it fails with an incidental `TypeError` (after creating
the output directory) rather than the InvalidState guard error. -/
theorem c6_unpopulated_emission (s : NFW.Populated) (t : simple_halo.State)
    (comv zAt comv2 zAt2 : ℝ → ℝ) (cosmoh : ℝ) (ud1 ud2 : ℕ → ℝ)
    (hs : s.populated = false) (ht : t.profile_particles = Option.none) :
    NFW.output_particles comv zAt s = Except.error PyErr.invalidState ∧
      (simple_halo.output_particles comv2 zAt2 cosmoh ud1 ud2 t).2
        = Except.error PyErr.typeError ∧
      (simple_halo.output_particles comv2 zAt2 cosmoh ud1 ud2 t).1
        = [simple_halo.Eff.makedirs] := by
  refine ⟨?_, ?_, ?_⟩
  · unfold NFW.output_particles
    rw [hs]
    simp
  · unfold simple_halo.output_particles
    rw [ht]
  · unfold simple_halo.output_particles
    rw [ht]

/-- Witness for the amended C6 at the concrete unpopulated states. -/
theorem c6_witness :
    NFW.unpopulatedNFW.populated = false ∧
      simple_halo.unpopulatedState.profile_particles = Option.none ∧
      (NFW.output_particles id id NFW.unpopulatedNFW = Except.error PyErr.invalidState ∧
        (simple_halo.output_particles id id 1 (fun _ => 0) (fun _ => 0)
            simple_halo.unpopulatedState).2 = Except.error PyErr.typeError ∧
        (simple_halo.output_particles id id 1 (fun _ => 0) (fun _ => 0)
            simple_halo.unpopulatedState).1 = [simple_halo.Eff.makedirs]) :=
  ⟨rfl, rfl,
    c6_unpopulated_emission NFW.unpopulatedNFW simple_halo.unpopulatedState id id id id 1
      (fun _ => 0) (fun _ => 0) rfl rfl⟩

/-- Witness for the amended C1 at `v = u = 1/2`. -/
theorem c1_witness :
    (0 : ℝ) ≤ 1 / 2 ∧ (1 : ℝ) / 2 ≤ 1 ∧ (1 : ℝ) / 2 < 1 ∧
      ((0 ≤ NFW.phiDraw (1 / 2) ∧ NFW.phiDraw (1 / 2) < 2 * Real.pi) ∧
        (0 ≤ NFW.thetaDraw (1 / 2) ∧ NFW.thetaDraw (1 / 2) ≤ Real.pi) ∧
        Real.cos (NFW.thetaDraw (1 / 2)) = 2 * (1 / 2) - 1 ∧
        simple_halo.thetaDraw (1 / 2) = Real.pi * (1 / 2)) :=
  ⟨by norm_num, by norm_num, by norm_num,
    c1_angular_draws (1 / 2) (1 / 2) (by norm_num) (by norm_num) (by norm_num) (by norm_num)⟩

end MPWL
